import Mathlib

set_option linter.unusedVariables false

/-! Shallow embedding of the request-dispatch plane of the local LLM gateway:
    the backend registry / load balancer (`src/services/load_balancer.py`),
    the response cache (`src/services/cache_service.py`), the rate limiter
    (`src/api/middleware.py`), the cache-then-dispatch flow of
    `LLMService.generate` (`src/services/llm_service.py`) and the `/api/chat`
    handler (`src/main.py`), together with theorems about them.
    Python floats are modelled as `Rat`, Python ints as `Nat`/`Int`,
    `datetime.now()` values as abstract `Nat` timestamps passed in by callers,
    and Python dicts as insertion-ordered association lists. -/

/-- The single-quote character as a string (used inside response texts). -/
def sQuote : String := String.singleton (Char.ofNat 39)

/-- The forward-slash character (used by `url.rstrip`). -/
def slashChar : Char := Char.ofNat 47

/-- Live state of one backend instance: the `InstanceMetrics` dataclass of
    `services/load_balancer.py`, with the dataclass defaults. -/
structure InstanceMetrics where
  instance_id : String
  url : String
  active_connections : Int := 0
  total_requests : Nat := 0
  successful_requests : Nat := 0
  failed_requests : Nat := 0
  total_response_time : Rat := 0
  average_response_time : Rat := 0
  total_tokens : Nat := 0
  last_request_time : Option Nat := none
  last_error_time : Option Nat := none
  error_count : Nat := 0
  is_healthy : Bool := true
  health_check_failures : Nat := 0
  weight : Rat := 1
deriving DecidableEq

/-- The registry state of the `LoadBalancer` class: `self.instances` is a
    Python dict (insertion ordered), modelled as an association list; the
    mirror `self.instance_list` is exactly the key list of that dict and is
    not duplicated here. -/
structure LoadBalancer where
  instances : List (String × InstanceMetrics) := []
  current_index : Nat := 0
  total_requests : Nat := 0
deriving DecidableEq

/-- `self.instances.get(instance_id)`. -/
def lookupInstance (lb : LoadBalancer) (id : String) : Option InstanceMetrics :=
  (lb.instances.find? (fun p => decide (p.1 = id))).map Prod.snd

/-- `instance_id in self.instances`. -/
def hasInstance (lb : LoadBalancer) (id : String) : Bool :=
  lb.instances.any (fun p => decide (p.1 = id))

/-- In-place mutation of the dict entry `id` (no-op when absent). -/
def modifyInstance (lb : LoadBalancer) (id : String)
    (f : InstanceMetrics → InstanceMetrics) : LoadBalancer :=
  { lb with instances := lb.instances.map (fun p => if p.1 = id then (p.1, f p.2) else p) }

/-- `LoadBalancer.add_instance`: idempotent by id, appends a fresh
    `InstanceMetrics` with the url right-stripped of slashes. -/
def LoadBalancer.add_instance (lb : LoadBalancer) (id url : String) (weight : Rat) :
    LoadBalancer :=
  if hasInstance lb id then lb
  else { lb with instances :=
          lb.instances ++ [(id, { instance_id := id,
                                  url := String.mk
                                    ((url.toList.reverse.dropWhile
                                      (fun c => c == slashChar)).reverse),
                                  weight := weight })] }

/-- `LoadBalancer.release_instance`: decrement `active_connections`,
    floored at 0; no-op for an unknown id. -/
def LoadBalancer.release_instance (lb : LoadBalancer) (id : String) : LoadBalancer :=
  if hasInstance lb id then
    modifyInstance lb id (fun m =>
      { m with active_connections := max 0 (m.active_connections - 1) })
  else lb

/-- `LoadBalancer.update_metrics`: decrement `active_connections` (floored
    at 0); on success bump the success counters, recompute the average
    response time and reset `error_count`; on failure bump the failure
    counters, stamp `last_error_time` and clear `is_healthy` once
    `error_count` reaches 5.  No-op for an unknown id. -/
def LoadBalancer.update_metrics (lb : LoadBalancer) (id : String) (success : Bool)
    (response_time : Rat) (tokens_used : Nat) (now : Nat) : LoadBalancer :=
  if hasInstance lb id then
    modifyInstance lb id (fun m =>
      let m1 := { m with active_connections := max 0 (m.active_connections - 1) }
      if success then
        let m2 := { m1 with successful_requests := m1.successful_requests + 1,
                            total_response_time := m1.total_response_time + response_time,
                            total_tokens := m1.total_tokens + tokens_used }
        let m3 := if 0 < m2.successful_requests then
                    { m2 with average_response_time :=
                        m2.total_response_time / (m2.successful_requests : Rat) }
                  else m2
        { m3 with error_count := 0 }
      else
        let m2 := { m1 with failed_requests := m1.failed_requests + 1,
                            error_count := m1.error_count + 1,
                            last_error_time := some now }
        if 5 ≤ m2.error_count then { m2 with is_healthy := false } else m2)
  else lb

/-- `LoadBalancer.mark_unhealthy`: clear the flag, bump
    `health_check_failures`; no-op for an unknown id. -/
def LoadBalancer.mark_unhealthy (lb : LoadBalancer) (id : String) : LoadBalancer :=
  if hasInstance lb id then
    modifyInstance lb id (fun m =>
      { m with is_healthy := false, health_check_failures := m.health_check_failures + 1 })
  else lb

/-- `LoadBalancer.mark_healthy`: set the flag, zero `health_check_failures`;
    no-op for an unknown id. -/
def LoadBalancer.mark_healthy (lb : LoadBalancer) (id : String) : LoadBalancer :=
  if hasInstance lb id then
    modifyInstance lb id (fun m =>
      { m with is_healthy := true, health_check_failures := 0 })
  else lb

/-- `LoadBalancer._round_robin_select`: reset the cursor when it has run past
    the end, pick the candidate at the cursor, then advance.  The function
    never inspects the candidates, so it is stated for any element type;
    `none` models the `IndexError` on an empty candidate list (unreachable
    behind `get_instance`'s emptiness guard). -/
def roundRobinSelect {α : Type} (instances : List α) (current_index : Nat) :
    Option α × Nat :=
  let idx := if instances.length ≤ current_index then 0 else current_index
  match instances.get? idx with
  | none => (none, idx)
  | some inst => (some inst, idx + 1)

/-- `N` successive calls of `_round_robin_select` on a fixed candidate list
    (the claim's fixed set of healthy backends), threading the cursor and
    collecting the picks in order. -/
def roundRobinRun {α : Type} (instances : List α) (current_index : Nat) :
    Nat → List α × Nat
  | 0 => ([], current_index)
  | n + 1 =>
    match roundRobinSelect instances current_index with
    | (some x, c) => let r := roundRobinRun instances c n; (x :: r.1, r.2)
    | (none, c) => ([], c)

/-- One comparison step of Python's `min(..., key=lambda x:
    x.active_connections)`: the current best is replaced only on a strictly
    smaller key, so ties keep the earlier candidate. -/
def lcStep (acc x : InstanceMetrics) : InstanceMetrics :=
  if x.active_connections < acc.active_connections then x else acc

/-- `LoadBalancer._least_connections_select`:
    `min(instances, key=lambda x: x.active_connections)`; `none` models the
    `ValueError` on an empty candidate list. -/
def leastConnectionsSelect (instances : List InstanceMetrics) : Option InstanceMetrics :=
  match instances with
  | [] => none
  | h :: t => some (t.foldl lcStep h)

/-- One registry-mutating event of the dispatch plane.  `updMetrics` is a
    completed request outcome (`update_metrics`), `probe` is one run of
    `_check_instance_health` with the probe's outcome (HTTP 200 or not),
    `markHealthy`/`markUnhealthy` are the direct registry calls, `release`
    is `release_instance` and `addInst` is `add_instance`. -/
inductive LBEvent where
  | updMetrics (id : String) (success : Bool) (rt : Rat) (tokens : Nat) (now : Nat)
  | probe (id : String) (ok : Bool)
  | markHealthy (id : String)
  | markUnhealthy (id : String)
  | release (id : String)
  | addInst (id url : String) (weight : Rat)
deriving DecidableEq

/-- Apply one event to the registry.  A successful probe calls
    `mark_healthy` only when the instance is currently unhealthy
    (`_check_instance_health`, 200 branch); a failed probe calls
    `mark_unhealthy`; a probe on an unknown id does nothing (the prober
    only iterates registered instances). -/
def applyEvent (lb : LoadBalancer) : LBEvent → LoadBalancer
  | .updMetrics id success rt tokens now => lb.update_metrics id success rt tokens now
  | .probe id ok =>
    match lookupInstance lb id with
    | none => lb
    | some m =>
      if ok then (if m.is_healthy then lb else lb.mark_healthy id)
      else lb.mark_unhealthy id
  | .markHealthy id => lb.mark_healthy id
  | .markUnhealthy id => lb.mark_unhealthy id
  | .release id => lb.release_instance id
  | .addInst id url w => lb.add_instance id url w

/-- Run a trace of events from a registry state. -/
def runTrace (tr : List LBEvent) (lb : LoadBalancer) : LoadBalancer :=
  tr.foldl applyEvent lb

/-- The empty registry (state right after `LoadBalancer.__init__`). -/
def emptyLB : LoadBalancer := {}

/-- Observation used to state the health-invariant claim: the outcome of the
    latest health check for `id` in a trace (`none` when never probed). -/
def lastProbe (tr : List LBEvent) (id : String) : Option Bool :=
  tr.foldl (fun acc e =>
    match e with
    | .probe i ok => if i = id then some ok else acc
    | _ => acc) none

/-- Outcome of one awaited Redis round-trip, as seen by `CacheService`:
    the service may be unreachable (the `except` branches), or reply with
    an optional stored string (`None` for a missing key). -/
inductive RedisReply where
  | unreachable
  | value (v : Option String)
deriving DecidableEq

/-- The `CacheService` state: whether `initialize` managed to connect
    (`self.redis is not None`) plus the hit/miss/error counters. -/
structure CacheService where
  redis_connected : Bool
  hits : Nat := 0
  misses : Nat := 0
  errors : Nat := 0
deriving DecidableEq

/-- `CacheService.get`: `None` straight away when no connection exists;
    otherwise a raised error counts in `errors` and returns `None`, a reply
    is a hit when truthy (non-empty string) and a miss otherwise. -/
def CacheService.get (cs : CacheService) (reply : RedisReply) :
    Option String × CacheService :=
  if cs.redis_connected = false then (none, cs)
  else
    match reply with
    | .unreachable => (none, { cs with errors := cs.errors + 1 })
    | .value (some v) =>
      if v = "" then (none, { cs with misses := cs.misses + 1 })
      else (some v, { cs with hits := cs.hits + 1 })
    | .value none => (none, { cs with misses := cs.misses + 1 })

/-- `CacheService.set`: `False` straight away when no connection exists;
    otherwise a raised error counts in `errors` and returns `False`, and a
    completed `setex` returns `True`. -/
def CacheService.set (cs : CacheService) (reply : RedisReply) :
    Bool × CacheService :=
  if cs.redis_connected = false then (false, cs)
  else
    match reply with
    | .unreachable => (false, { cs with errors := cs.errors + 1 })
    | .value _ => (true, cs)

/-- `settings.RATE_LIMIT_PER_MINUTE` default. -/
def RATE_LIMIT_PER_MINUTE : Nat := 60

/-- Helper: does `needle` occur contiguously in the given character list? -/
def strContainsAux (needle : List Char) : List Char → Bool
  | [] => needle.isEmpty
  | c :: rest => List.isPrefixOf needle (c :: rest) || strContainsAux needle rest

/-- Python's `needle in haystack` on strings. -/
def strContains (haystack needle : String) : Bool :=
  strContainsAux needle.toList haystack.toList

/-- `RateLimitMiddleware._get_endpoint_limit`: 0 means unlimited. -/
def getEndpointLimit (path : String) : Nat :=
  if strContains path "/api/chat" then RATE_LIMIT_PER_MINUTE
  else if strContains path "/api/finetune" then 10
  else if strContains path "/api/models" && strContains path "pull" then 5
  else 0

/-- What the middleware does with one request: reject with 429, pass it
    through with the three rate headers attached, or pass it through with
    no headers (unlimited endpoint class). -/
inductive RLResult where
  | rateLimited
  | allowed (limit : Nat) (remaining : Int) (reset : Int)
  | unlimited
deriving DecidableEq

/-- The middleware state: `self.rate_limits`, a dict keyed by the client
    address alone, holding `(request count, window start)`.  `time.time()`
    values are modelled as integral seconds (`Int`); the 60-second window
    logic uses nothing finer. -/
structure RateLimitMiddleware where
  rate_limits : List (String × (Nat × Int)) := []
deriving DecidableEq

/-- Store the bucket for `client_ip` (dict assignment). -/
def putBucket (st : RateLimitMiddleware) (client_ip : String) (b : Nat × Int) :
    RateLimitMiddleware :=
  if st.rate_limits.any (fun p => decide (p.1 = client_ip)) then
    { rate_limits := st.rate_limits.map
        (fun p => if p.1 = client_ip then (p.1, b) else p) }
  else { rate_limits := st.rate_limits ++ [(client_ip, b)] }

/-- `self.rate_limits.get(client_ip, (0, current_time))` without the default. -/
def getBucket (st : RateLimitMiddleware) (client_ip : String) : Option (Nat × Int) :=
  (st.rate_limits.find? (fun p => decide (p.1 = client_ip))).map Prod.snd

/-- `RateLimitMiddleware.dispatch` for one request: look the client's bucket
    up (defaulting to `(0, now)`), locally reset it when the 60 s window has
    passed, return 429 without touching the stored state when the counter has
    reached the endpoint's limit, and otherwise store the bumped counter and
    attach the three rate headers. -/
def RateLimitMiddleware.dispatch (st : RateLimitMiddleware) (client_ip path : String)
    (now : Int) : RLResult × RateLimitMiddleware :=
  let endpoint_limit := getEndpointLimit path
  if endpoint_limit = 0 then (.unlimited, st)
  else
    let b := (getBucket st client_ip).getD (0, now)
    let b := if 60 < now - b.2 then ((0 : Nat), now) else b
    if endpoint_limit ≤ b.1 then (.rateLimited, st)
    else (.allowed endpoint_limit ((endpoint_limit : Int) - (b.1 : Int) - 1) (b.2 + 60),
          putBucket st client_ip (b.1 + 1, b.2))

/-- Run a sequence of `(client_ip, path, time)` requests through the
    middleware, collecting the per-request results. -/
def runRL (st : RateLimitMiddleware) : List (String × String × Int) →
    List RLResult × RateLimitMiddleware
  | [] => ([], st)
  | r :: rs =>
    let s := st.dispatch r.1 r.2.1 r.2.2
    let rest := runRL s.2 rs
    (s.1 :: rest.1, rest.2)

/-- The middleware state at startup. -/
def emptyRL : RateLimitMiddleware := {}

/-- Where one cacheable non-streaming `LLMService.generate` call stands:
    before its cache lookup (line 76), about to dispatch upstream after a
    miss (lines 84-153), or finished with its result string. -/
inductive ReqPhase where
  | start
  | dispatch
  | finished (result : String)
deriving DecidableEq

/-- Shared state of `M` concurrent `generate` calls with the same cache key:
    the cache entry for that key, the number of upstream `/api/generate`
    POSTs issued so far, and each call's phase.  `await cache_service.get`
    suspends between the lookup and the dispatch, which is where concurrent
    calls interleave; there is no in-flight table in the code. -/
structure SFWorld where
  cacheVal : Option String
  upstreamCalls : Nat
  phases : List ReqPhase
deriving DecidableEq

/-- One scheduler step of request `i`: a `start` request performs its cache
    lookup and the `if cached:` TRUTHINESS check of `generate`
    (llm_service.py line 77) — only a present AND non-empty cached string is
    a hit that finishes it with the cached bytes; an absent entry or a
    cached empty string is a miss that moves it to `dispatch`.  A `dispatch`
    request performs the upstream call, stores the backend's bytes in the
    cache and finishes with them. -/
def sfStep (resp : String) (w : SFWorld) (i : Nat) : SFWorld :=
  match w.phases.get? i with
  | some .start =>
    match w.cacheVal with
    | some v =>
      if v = "" then { w with phases := w.phases.set i .dispatch }
      else { w with phases := w.phases.set i (.finished v) }
    | none => { w with phases := w.phases.set i .dispatch }
  | some .dispatch =>
    { cacheVal := some resp, upstreamCalls := w.upstreamCalls + 1,
      phases := w.phases.set i (.finished resp) }
  | _ => w

/-- Run a schedule (a list of request indices, each occurrence being one
    step of that request). -/
def sfRun (resp : String) (sched : List Nat) (w : SFWorld) : SFWorld :=
  sched.foldl (sfStep resp) w

/-- `M` identical cacheable requests, none started, cold cache. -/
def sfInit (M : Nat) : SFWorld := ⟨none, 0, List.replicate M .start⟩

/-- The fully sequential schedule: request 0 runs to completion (lookup,
    then dispatch), then each later request runs its single lookup step. -/
def seqSched (M : Nat) : List Nat := 0 :: 0 :: List.range' 1 (M - 1)

/-- One extracted fenced code block (`{"language", "code"}` dict). -/
structure CodeBlock where
  language : String
  code : String
deriving DecidableEq

/-- The `/api/chat` 200 response body built in `main.py`. -/
structure ChatResponse where
  message : String
  conversation_id : Nat
  code_blocks : List CodeBlock
  tokens_used : Nat
  model : String
deriving DecidableEq

/-- One decoded NDJSON frame of the upstream `/api/generate` protocol. -/
structure GenFrame where
  response : Option String := none
  done : Bool := false
  total_tokens : Option Nat := none
  total_duration : Option Nat := none
deriving DecidableEq

/-- What the upstream POST produced: a transport error, or an HTTP status
    together with the NDJSON frames the body consists of. -/
inductive UpstreamResult where
  | transportError (msg : String)
  | httpResponse (status : Nat) (frames : List GenFrame)
deriving DecidableEq

/-- `response.json()` parses the whole body as ONE JSON document: it yields
    the single frame when the body holds exactly one, and raises
    (`none`) when the body is a multi-frame NDJSON stream. -/
def parseSingleJson (frames : List GenFrame) : Option GenFrame :=
  match frames with
  | [f] => some f
  | _ => none

/-- The whitespace characters `str.strip()` removes (space, tab, newline,
    carriage return, form feed, vertical tab). -/
def isPyWhitespace (c : Char) : Bool :=
  c == Char.ofNat 32 || c == Char.ofNat 9 || c == Char.ofNat 10 ||
    c == Char.ofNat 13 || c == Char.ofNat 12 || c == Char.ofNat 11

/-- Python's `str.strip()`. -/
def pyStrip (s : String) : String :=
  String.mk (((s.toList.dropWhile isPyWhitespace).reverse.dropWhile
    isPyWhitespace).reverse)

/-- Python's `str.startswith`. -/
def pyStartsWith (s pre : String) : Bool :=
  List.isPrefixOf pre.toList s.toList

/-- Split a character list at every occurrence of `c` (Python's
    `str.split(c)` for a single-character separator). -/
def splitListOn (c : Char) : List Char → List (List Char)
  | [] => [[]]
  | x :: xs =>
    let r := splitListOn c xs
    if x == c then [] :: r
    else
      match r with
      | [] => [[x]]
      | g :: gs => (x :: g) :: gs

/-- Python's `full_response.split(chr(10))`. -/
def pySplitLines (s : String) : List String :=
  (splitListOn (Char.ofNat 10) s.toList).map String.mk

/-- Scanner state of the code-block extraction loop in `main.py` lines
    191-214. -/
structure ExtractState where
  in_code_block : Bool
  current_code : List String
  current_language : String
  code_blocks : List CodeBlock
deriving DecidableEq

/-- One line of the extraction loop. -/
def extractStep (st : ExtractState) (line : String) : ExtractState :=
  if pyStartsWith (pyStrip line) "```" then
    if st.in_code_block then
      { in_code_block := false, current_code := [], current_language := "",
        code_blocks := st.code_blocks ++
          (if st.current_code.isEmpty then []
           else [⟨st.current_language, String.intercalate "\n" st.current_code⟩]) }
    else
      { st with in_code_block := true,
                current_language := pyStrip ((pyStrip line).replace "```" "") }
  else if st.in_code_block then
    { st with current_code := st.current_code ++ [line] }
  else st

/-- The code-block extraction of `main.py`: split on newlines, scan. -/
def extractCodeBlocks (text : String) : List CodeBlock :=
  ((pySplitLines text).foldl extractStep ⟨false, [], "", []⟩).code_blocks

/-- The synthetic outage text of the fallback branch (`main.py` line 228). -/
def fallbackMessage (message model_name err : String) : String :=
  "Test response (Ollama not available): You asked: " ++ sQuote ++ message ++ sQuote ++
    ". Model: " ++ model_name ++
    ". This is a fallback response since Ollama connection failed: " ++ err

/-- The fallback body of `main.py` lines 227-238: HTTP 200, the synthetic
    message, and a ONE-element code-block list holding a synthetic python
    snippet. -/
def fallbackResponse (message model_name err : String) : ChatResponse :=
  { message := fallbackMessage message model_name err,
    conversation_id := 1,
    code_blocks := [⟨"python", "print(\"Fallback response for: " ++ message ++ "\")"⟩],
    tokens_used := 0,
    model := model_name }

/-- Outcome of the `/api/chat` handler: a JSON body with its HTTP status, or
    an `HTTPException` rendered as `{detail}`. -/
inductive ChatOutcome where
  | ok (status : Nat) (body : ChatResponse)
  | httpError (status : Nat) (detail : String)
deriving DecidableEq

/-- The non-streaming `/api/chat` handler of `main.py`, paired with the
    number of upstream `/api/generate` POSTs it issued (the code contains a
    single `client.post`, so at most one).  An empty message raises
    `HTTPException(400)`, which the outer `except Exception` re-wraps into a
    500; any upstream failure — transport error, `raise_for_status` on a
    non-2xx, or `response.json()` failing on a multi-frame body — lands in
    the inner `except` and returns the 200 fallback body. -/
def chat (message model_name : String) (upstream : UpstreamResult) :
    ChatOutcome × Nat :=
  if message = "" then (.httpError 500 "400: Message is required", 0)
  else
    match upstream with
    | .transportError e => (.ok 200 (fallbackResponse message model_name e), 1)
    | .httpResponse status frames =>
      if status < 200 || 300 ≤ status then
        (.ok 200 (fallbackResponse message model_name
          ("HTTP status error: " ++ toString status)), 1)
      else
        match parseSingleJson frames with
        | none =>
          (.ok 200 (fallbackResponse message model_name "JSONDecodeError"), 1)
        | some result =>
          let full_response := (result.response).getD ""
          (.ok 200 { message := full_response,
                     conversation_id := 1,
                     code_blocks := extractCodeBlocks full_response,
                     tokens_used := (result.total_duration).getD 0,
                     model := model_name }, 1)

/-- One failed request against instance `i1` (`update_metrics` with
    `success=False`). -/
def updF : LBEvent := .updMetrics "i1" false 0 0 0

/-- Register one backend, fail five requests against it (driving
    `error_count` to 5 and the flag off), then run one SUCCESSFUL health
    probe. -/
def cexTrace : List LBEvent :=
  [.addInst "i1" "u" 1, updF, updF, updF, updF, updF, .probe "i1" true]

/-- The health-invariant claim, as stated: in the state reached by a trace,
    a backend is healthy iff its latest health check succeeded and its
    consecutive error count is strictly below 5. -/
def healthyIffClaim (tr : List LBEvent) : Prop :=
  ∀ id m, lookupInstance (runTrace tr emptyLB) id = some m →
    (m.is_healthy = true ↔ (lastProbe tr id = some true ∧ m.error_count < 5))

/-- The selection order the least-connections claim describes: fewer active
    connections first, then fewer total requests, then the lexicographically
    smaller id. -/
def specLeastOrder (x y : InstanceMetrics) : Prop :=
  x.active_connections < y.active_connections ∨
    (x.active_connections = y.active_connections ∧ x.total_requests < y.total_requests) ∨
    (x.active_connections = y.active_connections ∧ x.total_requests = y.total_requests ∧
      x.instance_id < y.instance_id)

/-- First candidate: tied on `active_connections`, more total requests,
    larger id. -/
def lcA : InstanceMetrics := { instance_id := "b", url := "u", total_requests := 10 }

/-- Second candidate: tied on `active_connections`, fewer total requests,
    smaller id. -/
def lcB : InstanceMetrics := { instance_id := "a", url := "u", total_requests := 0 }

/-- Ten requests to the fine-tune class followed by the client's FIRST
    request to the model-pull class, all from one address inside one
    window. -/
def cexReqs : List (String × String × Int) :=
  List.replicate 10 ("1.2.3.4", "/api/finetune/jobs", (0 : Int)) ++
    [("1.2.3.4", "/api/models/pull/llama", (0 : Int))]

/-- The upstream NDJSON body of the specification's non-streaming example:
    two incremental frames and a terminal frame carrying `total_tokens`. -/
def frames3 : List GenFrame :=
  [{ response := some "print" }, { response := some "(\"hi\")" },
   { done := true, total_tokens := some 3 }]

/-- The same exchange collapsed into the single JSON document a
    non-streaming backend reply actually is, still carrying
    `total_tokens = 3`. -/
def frames1 : List GenFrame :=
  [{ response := some "print(\"hi\")", done := true, total_tokens := some 3 }]

/-- A registry holding only the instance `other` (witness state). -/
def lbW : LoadBalancer := emptyLB.add_instance "other" "http://a" 1

/-- A backend with some accumulated metrics satisfying the average-time
    invariant (witness state). -/
def m9 : InstanceMetrics :=
  { instance_id := "i1", url := "u", active_connections := 2, total_requests := 3,
    successful_requests := 1, failed_requests := 1, total_response_time := 4,
    average_response_time := 4, error_count := 1 }

/-- A registry holding `m9` (witness state). -/
def lbW9 : LoadBalancer := { instances := [("i1", m9)] }

/-- The metrics of `m9` after `mark_unhealthy` (witness state). -/
def m9u : InstanceMetrics :=
  { m9 with is_healthy := false, health_check_failures := m9.health_check_failures + 1 }

/-- The flag value the code leaves on backend `id` (previously in state `m`)
    after one event — the amended health-transition discipline. -/
def healthyAfter (e : LBEvent) (id : String) (m : InstanceMetrics) : Bool :=
  match e with
  | .probe i ok => if i = id then ok else m.is_healthy
  | .markHealthy i => if i = id then true else m.is_healthy
  | .markUnhealthy i => if i = id then false else m.is_healthy
  | .updMetrics i success _ _ _ =>
    if i = id ∧ success = false ∧ 5 ≤ m.error_count + 1 then false
    else m.is_healthy
  | _ => m.is_healthy

/-- Helper: a function on dict entries that never changes the key commutes
    with the key search. -/
theorem find?_map_keyfix {β : Type} (l : List (String × β)) (g : String × β → String × β)
    (hg : ∀ p, (g p).1 = p.1) (id : String) :
    (l.map g).find? (fun p => decide (p.1 = id)) =
      (l.find? (fun p => decide (p.1 = id))).map g := by
  induction l with
  | nil => rfl
  | cons p t ih =>
    by_cases h : p.1 = id
    · rw [List.map_cons, List.find?_cons_of_pos _ (by simpa [hg p]),
        List.find?_cons_of_pos _ (by simpa), Option.map_some']
    · rw [List.map_cons, List.find?_cons_of_neg _ (by simpa [hg p]),
        List.find?_cons_of_neg _ (by simpa), ih]

/-- Helper: the membership test of an association list agrees with the key
    search returning a result. -/
theorem any_eq_find?_isSome {β : Type} (l : List (String × β)) (id : String) :
    (l.any fun p => decide (p.1 = id)) = (l.find? (fun p => decide (p.1 = id))).isSome := by
  induction l with
  | nil => rfl
  | cons p t ih =>
    by_cases h : p.1 = id
    · rw [List.any_cons, List.find?_cons_of_pos _ (by simpa)]
      simp [h]
    · rw [List.any_cons, List.find?_cons_of_neg _ (by simpa), ← ih]
      simp [h]

/-- Looking an id up after an in-place mutation of entry `i`. -/
theorem lookup_modifyInstance (lb : LoadBalancer) (i id : String)
    (f : InstanceMetrics → InstanceMetrics) :
    lookupInstance (modifyInstance lb i f) id =
      (lookupInstance lb id).map (fun m => if id = i then f m else m) := by
  unfold lookupInstance modifyInstance
  rw [find?_map_keyfix _ _ (fun p => by by_cases hp : p.1 = i <;> simp [hp])]
  cases hfind : lb.instances.find? (fun p => decide (p.1 = id)) with
  | none => rfl
  | some q =>
    have hq : q.1 = id := by
      have := List.find?_some hfind
      simpa using this
    simp only [Option.map_some']
    by_cases hcase : id = i
    · simp [hq, hcase]
    · simp [hq, hcase]

/-- Membership test agrees with the lookup. -/
theorem hasInstance_eq_isSome (lb : LoadBalancer) (id : String) :
    hasInstance lb id = (lookupInstance lb id).isSome := by
  unfold hasInstance lookupInstance
  rw [Option.isSome_map', any_eq_find?_isSome]

/-- C10: calling `release_instance`, `update_metrics`, `mark_unhealthy` or
    `mark_healthy` with an id that is not in the registry returns without
    error and leaves the whole registry state unchanged. -/
theorem unknown_id_noop (lb : LoadBalancer) (id : String)
    (h : lookupInstance lb id = none) (success : Bool) (rt : Rat) (tk now : Nat) :
    lb.release_instance id = lb ∧
    lb.update_metrics id success rt tk now = lb ∧
    lb.mark_unhealthy id = lb ∧
    lb.mark_healthy id = lb := by
  have hhas : hasInstance lb id = false := by
    rw [hasInstance_eq_isSome, h]; rfl
  unfold LoadBalancer.release_instance LoadBalancer.update_metrics
    LoadBalancer.mark_unhealthy LoadBalancer.mark_healthy
  simp [hhas]

/-- Witness for `unknown_id_noop` at a registry holding only `other`. -/
theorem unknown_id_noop_witness :
    lookupInstance lbW "nope" = none ∧
    (lbW.release_instance "nope" = lbW ∧
     lbW.update_metrics "nope" true 0 0 0 = lbW ∧
     lbW.mark_unhealthy "nope" = lbW ∧
     lbW.mark_healthy "nope" = lbW) :=
  ⟨by decide, unknown_id_noop lbW "nope" (by decide) true 0 0 0⟩

/-- C9: `update_metrics` on a registered backend decrements
    `active_connections` floored at 0; on success it resets the consecutive
    error count, bumps the success counters and recomputes the average
    response time as total over successes; on failure it bumps the error
    counter and clears the healthy flag exactly when the counter reaches 5;
    and it preserves the average-response-time invariant. -/
theorem update_metrics_spec (lb : LoadBalancer) (id : String) (m : InstanceMetrics)
    (h : lookupInstance lb id = some m) (success : Bool) (rt : Rat) (tk now : Nat) :
    ∃ m', lookupInstance (lb.update_metrics id success rt tk now) id = some m' ∧
      m'.active_connections = max 0 (m.active_connections - 1) ∧
      (success = true →
        m'.error_count = 0 ∧
        m'.successful_requests = m.successful_requests + 1 ∧
        m'.total_response_time = m.total_response_time + rt ∧
        m'.average_response_time = m'.total_response_time / (m'.successful_requests : Rat) ∧
        m'.is_healthy = m.is_healthy) ∧
      (success = false →
        m'.error_count = m.error_count + 1 ∧
        m'.failed_requests = m.failed_requests + 1 ∧
        m'.successful_requests = m.successful_requests ∧
        m'.is_healthy = (if 5 ≤ m.error_count + 1 then false else m.is_healthy)) ∧
      ((m.average_response_time =
          if m.successful_requests = 0 then 0
          else m.total_response_time / (m.successful_requests : Rat)) →
        (m'.average_response_time =
          if m'.successful_requests = 0 then 0
          else m'.total_response_time / (m'.successful_requests : Rat))) := by
  have hhas : hasInstance lb id = true := by
    rw [hasInstance_eq_isSome, h]; rfl
  unfold LoadBalancer.update_metrics
  rw [if_pos hhas, lookup_modifyInstance, h, Option.map_some', if_pos rfl]
  cases success with
  | true =>
    refine ⟨_, rfl, ?_, ?_, ?_, ?_⟩
    · simp
    · intro _
      refine ⟨?_, ?_, ?_, ?_, ?_⟩ <;> simp
    · intro hc; exact absurd hc (by simp)
    · intro _
      simp
  | false =>
    by_cases h5 : 5 ≤ m.error_count + 1
    · refine ⟨_, rfl, ?_, ?_, ?_, ?_⟩
      · simp [h5]
      · intro hc; exact absurd hc (by simp)
      · intro _
        refine ⟨?_, ?_, ?_, ?_⟩ <;> simp [h5]
      · intro hinv
        simpa [h5] using hinv
    · refine ⟨_, rfl, ?_, ?_, ?_, ?_⟩
      · simp [h5]
      · intro hc; exact absurd hc (by simp)
      · intro _
        refine ⟨?_, ?_, ?_, ?_⟩ <;> simp [h5]
      · intro hinv
        simpa [h5] using hinv

/-- Witness for `update_metrics_spec`: a successful request against `m9`. -/
theorem update_metrics_spec_witness :
    lookupInstance lbW9 "i1" = some m9 ∧
    (∃ m', lookupInstance (lbW9.update_metrics "i1" true 2 7 5) "i1" = some m' ∧
      m'.active_connections = max 0 (m9.active_connections - 1) ∧
      (true = true →
        m'.error_count = 0 ∧
        m'.successful_requests = m9.successful_requests + 1 ∧
        m'.total_response_time = m9.total_response_time + 2 ∧
        m'.average_response_time = m'.total_response_time / (m'.successful_requests : Rat) ∧
        m'.is_healthy = m9.is_healthy) ∧
      (true = false →
        m'.error_count = m9.error_count + 1 ∧
        m'.failed_requests = m9.failed_requests + 1 ∧
        m'.successful_requests = m9.successful_requests ∧
        m'.is_healthy = (if 5 ≤ m9.error_count + 1 then false else m9.is_healthy)) ∧
      ((m9.average_response_time =
          if m9.successful_requests = 0 then 0
          else m9.total_response_time / (m9.successful_requests : Rat)) →
        (m'.average_response_time =
          if m'.successful_requests = 0 then 0
          else m'.total_response_time / (m'.successful_requests : Rat)))) :=
  ⟨by decide, update_metrics_spec lbW9 "i1" m9 (by decide) true 2 7 5⟩

/-- C1 counterexample: two concurrent cacheable requests with the same key,
    both performing their cache lookup before either has dispatched, issue
    TWO upstream calls (there is no single-flight gate in
    `LLMService.generate`), refuting "exactly one upstream backend call". -/
theorem single_flight_cex :
    (sfRun "r" [0, 1, 0, 1] (sfInit 2)).upstreamCalls = 2 ∧
    (sfRun "r" [0, 1, 0, 1] (sfInit 2)).phases = [.finished "r", .finished "r"] :=
  ⟨rfl, rfl⟩

/-- C2 counterexample: on an upstream transport failure the handler returns
    the fallback after exactly ONE upstream attempt (no retry budget is
    attempted), and the fallback's code-block list is NOT empty. -/
theorem fallback_cex :
    chat "hello" "m" (.transportError "connection refused")
      = (.ok 200 (fallbackResponse "hello" "m" "connection refused"), 1) ∧
    (fallbackResponse "hello" "m" "connection refused").code_blocks.length = 1 :=
  ⟨rfl, rfl⟩

/-- C2 amended: with a non-empty message, a failed upstream attempt makes the
    handler return HTTP 200 immediately after that single attempt, carrying
    the synthetic outage body and a one-element code-block list with a
    synthetic python snippet. -/
theorem fallback_immediate (message model err : String) (h : message ≠ "") :
    chat message model (.transportError err)
      = (.ok 200 (fallbackResponse message model err), 1) ∧
    (fallbackResponse message model err).code_blocks
      = [⟨"python", "print(\"Fallback response for: " ++ message ++ "\")"⟩] := by
  unfold chat
  rw [if_neg h]
  exact ⟨rfl, rfl⟩

/-- Witness for `fallback_immediate`. -/
theorem fallback_immediate_witness :
    ("hi" : String) ≠ "" ∧
    (chat "hi" "m" (.transportError "e")
        = (.ok 200 (fallbackResponse "hi" "m" "e"), 1) ∧
      (fallbackResponse "hi" "m" "e").code_blocks
        = [⟨"python", "print(\"Fallback response for: hi\")"⟩]) :=
  ⟨by decide, fallback_immediate "hi" "m" "e" (by decide)⟩

/-- C3: evaluating the handler at the specification's own example.  The
    three-frame NDJSON body cannot be parsed by the single `response.json()`
    call, so the handler answers with the synthetic fallback instead of the
    concatenated message; and even when the backend reply arrives as the one
    JSON document `{response, done, total_tokens: 3}`, the handler fills
    `tokens_used` from the absent `total_duration` field, returning 0 where
    the claim requires 3. -/
theorem chat_tokens_used_bug :
    chat "Write Python hello world" "deepseek-coder:6.7b" (.httpResponse 200 frames3)
      = (.ok 200 (fallbackResponse "Write Python hello world" "deepseek-coder:6.7b"
          "JSONDecodeError"), 1) ∧
    (chat "w" "m" (.httpResponse 200 frames1)).1
      = .ok 200 { message := "print(\"hi\")", conversation_id := 1,
                  code_blocks := [], tokens_used := 0, model := "m" } :=
  ⟨rfl, rfl⟩

/-- C4 counterexample: after five failed requests (error count 5, flag off)
    one successful probe turns the flag back on WITHOUT resetting the error
    count, so a reachable state has a healthy backend whose latest health
    check succeeded but whose consecutive error count is 5 — the claimed
    iff is false. -/
theorem healthy_iff_cex : ¬ healthyIffClaim cexTrace := by
  intro hclaim
  have h2 := hclaim "i1"
    { instance_id := "i1", url := "u", failed_requests := 5,
      last_error_time := some 0, error_count := 5, is_healthy := true }
    (by decide)
  rcases (h2.mp rfl) with ⟨-, hlt⟩
  exact absurd hlt (by decide)

/-- C5 counterexample: with two candidates tied on `active_connections`,
    the selector returns the FIRST one even though the second has strictly
    fewer total requests and the lexicographically smaller id, refuting the
    claimed tie-breaks. -/
theorem least_connections_cex :
    leastConnectionsSelect [lcA, lcB] = some lcA ∧
    specLeastOrder lcB lcA ∧ lcB ≠ lcA := by
  refine ⟨by decide, ?_, by decide⟩
  right; left
  exact ⟨by decide, by decide⟩

set_option maxRecDepth 4000 in
/-- C7 counterexample: buckets are keyed by the client address alone, so ten
    requests to the fine-tune class exhaust the shared counter and the
    client's very FIRST request to the model-pull class (limit 5) is
    answered 429 — impossible under per-`(client_ip, endpoint_class)`
    buckets.  The same single request against a fresh state is allowed. -/
theorem rate_limit_bucket_cex :
    (runRL emptyRL cexReqs).1.get? 10 = some .rateLimited ∧
    getEndpointLimit "/api/models/pull/llama" = 5 ∧
    (∀ r ∈ cexReqs.take 10, r.2.1 = "/api/finetune/jobs") ∧
    (runRL emptyRL [("1.2.3.4", "/api/models/pull/llama", (0 : Int))]).1
      = [.allowed 5 4 60] := by
  refine ⟨by decide, by decide, by decide, by decide⟩

/-- C8 counterexample: with no Redis connection (`self.redis is None`) a
    `get` returns a miss and a `set` returns false, but the error counter is
    NOT incremented, refuting "each such failed operation increments the
    cache error counter". -/
theorem cache_errors_cex :
    CacheService.get ⟨false, 0, 0, 0⟩ .unreachable = (none, ⟨false, 0, 0, 0⟩) ∧
    CacheService.set ⟨false, 0, 0, 0⟩ .unreachable = (false, ⟨false, 0, 0, 0⟩) :=
  ⟨rfl, rfl⟩

/-- C8 amended: whenever the external service is unreachable, `get` returns
    a miss and `set` returns false and neither failure propagates; the error
    counter is incremented exactly when an established connection's
    operation fails, and left untouched when no connection exists. -/
theorem cache_unreachable_behavior (cs : CacheService) :
    (cs.redis_connected = false →
      cs.get .unreachable = (none, cs) ∧ cs.set .unreachable = (false, cs)) ∧
    (cs.redis_connected = true →
      cs.get .unreachable = (none, { cs with errors := cs.errors + 1 }) ∧
      cs.set .unreachable = (false, { cs with errors := cs.errors + 1 })) := by
  constructor <;> intro h <;>
    exact ⟨by simp [CacheService.get, h], by simp [CacheService.set, h]⟩

/-- Witness for `cache_unreachable_behavior` on a connected service. -/
theorem cache_unreachable_behavior_witness :
    (⟨true, 0, 0, 0⟩ : CacheService).redis_connected = true ∧
    (CacheService.get ⟨true, 0, 0, 0⟩ .unreachable = (none, ⟨true, 0, 0, 1⟩) ∧
     CacheService.set ⟨true, 0, 0, 0⟩ .unreachable = (false, ⟨true, 0, 0, 1⟩)) :=
  ⟨rfl, (cache_unreachable_behavior ⟨true, 0, 0, 0⟩).2 rfl⟩

/-- Helper: the running fold of `lcStep` either keeps the seed (which is then
    a minimum) or lands on a strictly better element whose earlier
    competitors are all strictly worse. -/
theorem foldl_least_spec (t : List InstanceMetrics) (h : InstanceMetrics) :
    (t.foldl lcStep h = h ∧
      ∀ y ∈ t, h.active_connections ≤ y.active_connections) ∨
    ((t.foldl lcStep h).active_connections < h.active_connections ∧
      ∃ t1 t2, t = t1 ++ (t.foldl lcStep h) :: t2 ∧
        (∀ y ∈ t1, (t.foldl lcStep h).active_connections < y.active_connections) ∧
        (∀ y ∈ t2, (t.foldl lcStep h).active_connections ≤ y.active_connections)) := by
  induction t generalizing h with
  | nil => left; exact ⟨rfl, by simp⟩
  | cons x t ih =>
    simp only [List.foldl_cons]
    by_cases hx : x.active_connections < h.active_connections
    · rw [show lcStep h x = x from if_pos hx]
      rcases ih x with ⟨heq, hall⟩ | ⟨hlt, t1, t2, hsplit, h1, h2⟩
      · right
        rw [heq]
        exact ⟨hx, [], t, rfl, by simp, hall⟩
      · right
        refine ⟨lt_trans hlt hx, x :: t1, t2, by rw [List.cons_append, ← hsplit], ?_, h2⟩
        intro y hy
        rcases List.mem_cons.mp hy with rfl | hy'
        · exact hlt
        · exact h1 y hy'
    · rw [show lcStep h x = h from if_neg hx]
      push_neg at hx
      rcases ih h with ⟨heq, hall⟩ | ⟨hlt, t1, t2, hsplit, h1, h2⟩
      · left
        refine ⟨heq, ?_⟩
        intro y hy
        rcases List.mem_cons.mp hy with rfl | hy'
        · exact hx
        · exact hall y hy'
      · right
        refine ⟨hlt, x :: t1, t2, by rw [List.cons_append, ← hsplit], ?_, h2⟩
        intro y hy
        rcases List.mem_cons.mp hy with rfl | hy'
        · exact lt_of_lt_of_le hlt hx
        · exact h1 y hy'

/-- C5 amended: the least-connections selector returns an element of the
    candidate list whose `active_connections` is minimal, and among the
    minima it returns the FIRST in candidate order: everything before it in
    the list is strictly more loaded.  (`total_requests` and the id play no
    role.) -/
theorem least_connections_first_min (l : List InstanceMetrics) (x : InstanceMetrics)
    (h : leastConnectionsSelect l = some x) :
    x ∈ l ∧ (∀ y ∈ l, x.active_connections ≤ y.active_connections) ∧
    ∃ t1 t2, l = t1 ++ x :: t2 ∧
      ∀ y ∈ t1, x.active_connections < y.active_connections := by
  match l, h with
  | h0 :: t, h =>
    have hx : t.foldl lcStep h0 = x := by
      simpa [leastConnectionsSelect] using h
    rcases foldl_least_spec t h0 with ⟨heq, hall⟩ | ⟨hlt, t1, t2, hsplit, h1, h2⟩
    · rw [heq] at hx
      subst hx
      refine ⟨List.mem_cons_self _ _, ?_, [], t, rfl, by simp⟩
      intro y hy
      rcases List.mem_cons.mp hy with rfl | hy'
      · exact le_refl _
      · exact hall y hy'
    · rw [hx] at hlt hsplit h1 h2
      refine ⟨?_, ?_, h0 :: t1, t2, by rw [List.cons_append, ← hsplit], ?_⟩
      · rw [hsplit]
        simp
      · intro y hy
        rcases List.mem_cons.mp hy with rfl | hy'
        · exact le_of_lt hlt
        · rw [hsplit] at hy'
          rcases List.mem_append.mp hy' with hy1 | hy2
          · exact le_of_lt (h1 y hy1)
          · rcases List.mem_cons.mp hy2 with rfl | hy3
            · exact le_refl _
            · exact h2 y hy3
      · intro y hy
        rcases List.mem_cons.mp hy with rfl | hy'
        · exact hlt
        · exact h1 y hy'

/-- Witness for `least_connections_first_min`: the earlier of two equally
    loaded candidates is selected. -/
theorem least_connections_first_min_witness :
    leastConnectionsSelect [lcB, lcA] = some lcB ∧
    (lcB ∈ [lcB, lcA] ∧
      (∀ y ∈ [lcB, lcA], lcB.active_connections ≤ y.active_connections) ∧
      ∃ t1 t2, [lcB, lcA] = t1 ++ lcB :: t2 ∧
        ∀ y ∈ t1, lcB.active_connections < y.active_connections) :=
  ⟨by decide, least_connections_first_min [lcB, lcA] lcB (by decide)⟩

/-- Helper: reading just past a prefix lands on the next element. -/
theorem get?_append_cons {α : Type} (pre : List α) (x : α) (rest : List α) :
    (pre ++ x :: rest).get? pre.length = some x := by
  induction pre with
  | nil => rfl
  | cons a t ih => exact ih

/-- Helper: writing just past a prefix replaces the next element. -/
theorem set_append_cons {α : Type} (pre : List α) (x y : α) (rest : List α) :
    (pre ++ x :: rest).set pre.length y = pre ++ y :: rest := by
  induction pre with
  | nil => rfl
  | cons a t ih => exact congrArg (List.cons a) ih

/-- Helper: once the shared cache key is populated with a non-empty (truthy)
    response, one lookup step per still-unstarted request finishes each of
    them from the cache, with no further upstream call. -/
theorem sfRun_fill (resp : String) (hresp : resp ≠ "") :
    ∀ (k : Nat) (pre : List ReqPhase) (c : Nat),
      sfRun resp (List.range' pre.length k) ⟨some resp, c, pre ++ List.replicate k .start⟩
        = ⟨some resp, c, pre ++ List.replicate k (.finished resp)⟩
  | 0, pre, c => by simp [sfRun, List.range']
  | k + 1, pre, c => by
    have hstep : sfStep resp ⟨some resp, c, pre ++ List.replicate (k + 1) .start⟩ pre.length
        = ⟨some resp, c, (pre ++ [.finished resp]) ++ List.replicate k .start⟩ := by
      unfold sfStep
      rw [List.replicate_succ, get?_append_cons]
      dsimp only
      rw [if_neg hresp]
      rw [set_append_cons]
      simp
    rw [List.range'_succ]
    show sfRun resp _ _ = _
    unfold sfRun
    rw [List.foldl_cons, hstep]
    have h3 := sfRun_fill resp hresp k (pre ++ [.finished resp]) c
    rw [List.length_append, List.length_singleton] at h3
    unfold sfRun at h3
    rw [h3]
    simp [List.replicate_succ]

/-- C1 amended: when the `M` identical cacheable requests run sequentially
    (request 0 completes before any other starts) and the backend's response
    is non-empty (so the `if cached:` truthiness check accepts the cached
    value), exactly ONE upstream call is made, the response is cached, and
    every request finishes with the same response bytes. -/
theorem single_flight_sequential (M : Nat) (hM : 0 < M) (resp : String)
    (hresp : resp ≠ "") :
    sfRun resp (seqSched M) (sfInit M)
      = ⟨some resp, 1, List.replicate M (.finished resp)⟩ := by
  obtain ⟨m, rfl⟩ : ∃ m, M = m + 1 := ⟨M - 1, by omega⟩
  have h1 : sfStep resp (sfInit (m + 1)) 0 = ⟨none, 0, .dispatch :: List.replicate m .start⟩ := by
    unfold sfInit sfStep
    rw [List.replicate_succ]
    rfl
  have h2 : sfStep resp ⟨none, 0, .dispatch :: List.replicate m .start⟩ 0
      = ⟨some resp, 1, .finished resp :: List.replicate m .start⟩ := rfl
  have h3 := sfRun_fill resp hresp m [.finished resp] 1
  rw [List.length_singleton] at h3
  calc sfRun resp (seqSched (m + 1)) (sfInit (m + 1))
      = sfRun resp (List.range' 1 m) (sfStep resp (sfStep resp (sfInit (m + 1)) 0) 0) := by
        unfold seqSched sfRun
        rw [Nat.add_sub_cancel, List.foldl_cons, List.foldl_cons]
    _ = ⟨some resp, 1, [ReqPhase.finished resp] ++ List.replicate m (.finished resp)⟩ := by
        rw [h1, h2]
        exact h3
    _ = ⟨some resp, 1, List.replicate (m + 1) (.finished resp)⟩ := by
        rw [List.replicate_succ]
        rfl

/-- Witness for `single_flight_sequential` with three requests. -/
theorem single_flight_sequential_witness :
    0 < 3 ∧ ("r" : String) ≠ "" ∧
    sfRun "r" (seqSched 3) (sfInit 3)
      = ⟨some "r", 1, List.replicate 3 (.finished "r")⟩ :=
  ⟨by decide, by decide, single_flight_sequential 3 (by decide) "r" (by decide)⟩

/-- Helper: looking an id up through a guarded in-place mutation of entry
    `i` (the common shape of the registry mutators). -/
theorem lookup_guardedModify (lb : LoadBalancer) (i id : String) (m : InstanceMetrics)
    (f : InstanceMetrics → InstanceMetrics) (h : lookupInstance lb id = some m) :
    lookupInstance (if hasInstance lb i then modifyInstance lb i f else lb) id
      = some (if id = i then f m else m) := by
  by_cases hg : hasInstance lb i
  · rw [if_pos hg, lookup_modifyInstance, h, Option.map_some']
  · have hne : ¬ (id = i) := by
      intro heq
      subst heq
      apply hg
      rw [hasInstance_eq_isSome, h]
      rfl
    rw [if_neg hg, h, if_neg hne]

/-- C4 amended: across every registry event, the healthy flag of a
    registered backend evolves as follows — a health probe on it sets the
    flag to the probe's outcome (success turns it on REGARDLESS of the
    consecutive error count, which it does not reset); `mark_healthy` /
    `mark_unhealthy` set it directly; a failed request turns it off exactly
    when it drives `error_count` to 5 or more; nothing else changes it.  In
    particular healthy is NOT equivalent to "latest health check succeeded
    and `error_count < 5`". -/
theorem healthy_flag_transitions (lb : LoadBalancer) (e : LBEvent) (id : String)
    (m m' : InstanceMetrics)
    (h : lookupInstance lb id = some m)
    (h' : lookupInstance (applyEvent lb e) id = some m') :
    m'.is_healthy = healthyAfter e id m := by
  cases e with
  | updMetrics i success rt tk now =>
    simp only [healthyAfter]
    simp only [applyEvent, LoadBalancer.update_metrics] at h'
    rw [lookup_guardedModify lb i id m _ h] at h'
    have hm' := Option.some.inj h'
    by_cases hii : id = i
    · subst hii
      rw [if_pos rfl] at hm'
      subst hm'
      cases success with
      | true => simp
      | false =>
        by_cases h5 : 5 ≤ m.error_count + 1 <;> simp [h5]
    · rw [if_neg hii] at hm'
      subst hm'
      rw [if_neg (fun hc => hii hc.1.symm)]
  | probe i ok =>
    simp only [healthyAfter]
    by_cases hii : i = id
    · subst hii
      simp only [applyEvent, h] at h'
      cases ok with
      | true =>
        by_cases hh : m.is_healthy
        · rw [if_pos (by simp [hh]), if_pos hh, h] at h'
          have hm' := Option.some.inj h'
          subst hm'
          rw [if_pos rfl, hh]
        · rw [if_pos (by simp), if_neg (by simpa using hh)] at h'
          simp only [LoadBalancer.mark_healthy] at h'
          rw [lookup_guardedModify lb i i m _ h, if_pos rfl] at h'
          have hm' := Option.some.inj h'
          subst hm'
          rw [if_pos rfl]
      | false =>
        rw [if_neg (by simp)] at h'
        simp only [LoadBalancer.mark_unhealthy] at h'
        rw [lookup_guardedModify lb i i m _ h, if_pos rfl] at h'
        have hm' := Option.some.inj h'
        subst hm'
        rw [if_pos rfl]
    · cases hmi : lookupInstance lb i with
      | none =>
        simp only [applyEvent, hmi] at h'
        rw [h] at h'
        have hm' := Option.some.inj h'
        subst hm'
        rw [if_neg hii]
      | some mi =>
        simp only [applyEvent, hmi] at h'
        have hiid : ¬ (id = i) := fun hc => hii hc.symm
        cases ok with
        | true =>
          by_cases hh : mi.is_healthy
          · rw [if_pos (by simp [hh]), if_pos hh, h] at h'
            have hm' := Option.some.inj h'
            subst hm'
            rw [if_neg hii]
          · rw [if_pos (by simp), if_neg (by simpa using hh)] at h'
            simp only [LoadBalancer.mark_healthy] at h'
            rw [lookup_guardedModify lb i id m _ h, if_neg hiid] at h'
            have hm' := Option.some.inj h'
            subst hm'
            rw [if_neg hii]
        | false =>
          rw [if_neg (by simp)] at h'
          simp only [LoadBalancer.mark_unhealthy] at h'
          rw [lookup_guardedModify lb i id m _ h, if_neg hiid] at h'
          have hm' := Option.some.inj h'
          subst hm'
          rw [if_neg hii]
  | markHealthy i =>
    simp only [healthyAfter]
    simp only [applyEvent, LoadBalancer.mark_healthy] at h'
    rw [lookup_guardedModify lb i id m _ h] at h'
    have hm' := Option.some.inj h'
    by_cases hii : id = i
    · subst hii
      rw [if_pos rfl] at hm'
      subst hm'
      rw [if_pos rfl]
    · rw [if_neg hii] at hm'
      subst hm'
      rw [if_neg (fun hc => hii hc.symm)]
  | markUnhealthy i =>
    simp only [healthyAfter]
    simp only [applyEvent, LoadBalancer.mark_unhealthy] at h'
    rw [lookup_guardedModify lb i id m _ h] at h'
    have hm' := Option.some.inj h'
    by_cases hii : id = i
    · subst hii
      rw [if_pos rfl] at hm'
      subst hm'
      rw [if_pos rfl]
    · rw [if_neg hii] at hm'
      subst hm'
      rw [if_neg (fun hc => hii hc.symm)]
  | release i =>
    simp only [healthyAfter]
    simp only [applyEvent, LoadBalancer.release_instance] at h'
    rw [lookup_guardedModify lb i id m _ h] at h'
    have hm' := Option.some.inj h'
    by_cases hii : id = i
    · subst hii
      rw [if_pos rfl] at hm'
      subst hm'
      rfl
    · rw [if_neg hii] at hm'
      subst hm'
      rfl
  | addInst i url w =>
    simp only [healthyAfter]
    simp only [applyEvent, LoadBalancer.add_instance] at h'
    by_cases hg : hasInstance lb i
    · rw [if_pos hg, h] at h'
      have hm' := Option.some.inj h'
      subst hm'
      rfl
    · rw [if_neg hg] at h'
      obtain ⟨q, hq, hq2⟩ := Option.map_eq_some'.mp h
      simp only [lookupInstance, List.find?_append, hq] at h'
      simp only [Option.or_some, Option.map_some'] at h'
      rw [hq2] at h'
      have hm' := Option.some.inj h'
      subst hm'
      rfl

/-- Witness for `healthy_flag_transitions`: a direct `mark_unhealthy`. -/
theorem healthy_flag_transitions_witness :
    lookupInstance lbW9 "i1" = some m9 ∧
    lookupInstance (applyEvent lbW9 (.markUnhealthy "i1")) "i1" = some m9u ∧
    m9u.is_healthy = healthyAfter (.markUnhealthy "i1") "i1" m9 :=
  ⟨by decide, by decide,
    healthy_flag_transitions lbW9 (.markUnhealthy "i1") "i1" m9 m9u
      (by decide) (by decide)⟩

/-- Helper: storing a bucket makes it the one the next lookup finds. -/
theorem getBucket_putBucket (st : RateLimitMiddleware) (ip : String) (b : Nat × Int) :
    getBucket (putBucket st ip b) ip = some b := by
  unfold getBucket putBucket
  by_cases hany : st.rate_limits.any (fun p => decide (p.1 = ip))
  · rw [if_pos hany]
    rw [find?_map_keyfix _ _ (fun p => by by_cases hp : p.1 = ip <;> simp [hp])]
    have hsome : (st.rate_limits.find? (fun p => decide (p.1 = ip))).isSome := by
      rw [← any_eq_find?_isSome]
      exact hany
    obtain ⟨q, hq⟩ := Option.isSome_iff_exists.mp hsome
    rw [hq]
    have hq1 : q.1 = ip := by simpa using List.find?_some hq
    simp [hq1]
  · rw [if_neg hany]
    have hnone : st.rate_limits.find? (fun p => decide (p.1 = ip)) = none := by
      rw [← Option.not_isSome_iff_eq_none, ← any_eq_find?_isSome]
      simpa using hany
    rw [List.find?_append, hnone]
    simp [List.find?]

/-- Helper: with a bucket `(c, t)` already present for the client, each of
    `n` further same-instant requests to one limited path is allowed with
    the advertised headers until the shared counter reaches the limit, and
    429 from then on; the 429 leaves the bucket untouched. -/
theorem runRL_same_class (ip path : String) (t : Int) (L : Nat)
    (hL : getEndpointLimit path = L) (hL0 : 0 < L) :
    ∀ (n : Nat) (st : RateLimitMiddleware) (c : Nat),
      getBucket st ip = some (c, t) →
      ∀ i, i < n →
        ((runRL st (List.replicate n (ip, path, t))).1.get? i
          = some (if c + i < L then
              RLResult.allowed L ((L : Int) - ((c + i : Nat) : Int) - 1) (t + 60)
            else RLResult.rateLimited)) := by
  intro n
  induction n with
  | zero => intro st c hb i hi; exact absurd hi (Nat.not_lt_zero i)
  | succ nn ih =>
    intro st c hb i hi
    have hstep : st.dispatch ip path t =
        if L ≤ c then (RLResult.rateLimited, st)
        else (RLResult.allowed L ((L : Int) - ((c : Nat) : Int) - 1) (t + 60),
              putBucket st ip (c + 1, t)) := by
      simp only [RateLimitMiddleware.dispatch, hL, hb, Option.getD_some]
      rw [if_neg (by omega : ¬ (L = 0))]
      rw [show t - t = (0 : Int) from sub_self t]
      rw [if_neg (by norm_num : ¬ ((60 : Int) < 0))]
    rw [List.replicate_succ]
    simp only [runRL]
    rw [hstep]
    by_cases hc : L ≤ c
    · rw [if_pos hc]
      cases i with
      | zero =>
        simp only [List.get?_cons_zero]
        rw [if_neg (by omega)]
      | succ j =>
        simp only [List.get?_cons_succ]
        rw [ih st c hb j (by omega)]
        rw [if_neg (by omega), if_neg (by omega)]
    · push_neg at hc
      rw [if_neg (by omega)]
      cases i with
      | zero =>
        simp only [List.get?_cons_zero]
        rw [if_pos (by omega : c + 0 < L)]
        norm_num
      | succ j =>
        simp only [List.get?_cons_succ]
        rw [ih (putBucket st ip (c + 1, t)) (c + 1) (getBucket_putBucket st ip (c + 1, t))
          j (by omega)]
        by_cases hcj : c + 1 + j < L
        · rw [if_pos hcj, if_pos (by omega : c + (j + 1) < L),
            show c + 1 + j = c + (j + 1) from by omega]
        · rw [if_neg hcj, if_neg (by omega)]

/-- C7 amended: buckets are keyed by the client address alone; for a client
    with no bucket yet, the i-th of `n` same-window requests to one limited
    endpoint class (limit `L`) is allowed with headers
    `(L, L-i-1, window_start+60)` while `i < L`, and receives 429 from the
    `(L+1)`-th request on. -/
theorem rate_limit_per_ip (st0 : RateLimitMiddleware) (ip path : String) (t : Int)
    (L : Nat) (hL : getEndpointLimit path = L) (hL0 : 0 < L)
    (h0 : getBucket st0 ip = none) (n i : Nat) (hi : i < n) :
    (runRL st0 (List.replicate n (ip, path, t))).1.get? i
      = some (if i < L then
          RLResult.allowed L ((L : Int) - ((i : Nat) : Int) - 1) (t + 60)
        else RLResult.rateLimited) := by
  obtain ⟨m, rfl⟩ : ∃ m, n = m + 1 := ⟨n - 1, by omega⟩
  have hstep : st0.dispatch ip path t =
      (RLResult.allowed L ((L : Int) - (((0 : Nat) : Nat) : Int) - 1) (t + 60),
        putBucket st0 ip (0 + 1, t)) := by
    simp only [RateLimitMiddleware.dispatch, hL, h0, Option.getD_none]
    rw [if_neg (by omega : ¬ (L = 0))]
    rw [show t - t = (0 : Int) from sub_self t]
    rw [if_neg (by norm_num : ¬ ((60 : Int) < 0))]
    rw [if_neg (by omega : ¬ (L ≤ 0))]
  rw [List.replicate_succ]
  simp only [runRL]
  rw [hstep]
  cases i with
  | zero =>
    simp only [List.get?_cons_zero]
    rw [if_pos (by omega : 0 < L)]
  | succ j =>
    simp only [List.get?_cons_succ]
    rw [runRL_same_class ip path t L hL hL0 m (putBucket st0 ip (0 + 1, t)) 1
      (getBucket_putBucket st0 ip (0 + 1, t)) j (by omega)]
    by_cases hcj : 1 + j < L
    · rw [if_pos hcj, if_pos (by omega : j + 1 < L),
        show 1 + j = j + 1 from by omega]
    · rw [if_neg hcj, if_neg (by omega)]

/-- Witness for `rate_limit_per_ip`: the second of two chat requests. -/
theorem rate_limit_per_ip_witness :
    getEndpointLimit "/api/chat" = 60 ∧ 0 < 60 ∧
    getBucket emptyRL "1.2.3.4" = none ∧ 1 < 2 ∧
    (runRL emptyRL (List.replicate 2 ("1.2.3.4", "/api/chat", (0 : Int)))).1.get? 1
      = some (if 1 < 60 then
          RLResult.allowed 60 ((60 : Int) - (((1 : Nat)) : Int) - 1) (0 + 60)
        else RLResult.rateLimited) :=
  ⟨by decide, by decide, rfl, by decide,
    rate_limit_per_ip emptyRL "1.2.3.4" "/api/chat" 0 60 (by decide) (by decide)
      rfl 2 1 (by decide)⟩

/-- Helper: among `0, …, N-1` exactly `N/K` numbers have residue `r`
    modulo `K`, plus one more when `r < N % K`. -/
theorem countP_range_mod (K r : Nat) (hK : 0 < K) (hr : r < K) :
    ∀ N : Nat, (List.range N).countP (fun t => decide (t % K = r)) =
      N / K + (if r < N % K then 1 else 0) := by
  intro N
  induction N with
  | zero => simp
  | succ n ih =>
    rw [List.range_succ, List.countP_append, ih]
    have hone : List.countP (fun t => decide (t % K = r)) [n]
        = if n % K = r then 1 else 0 := by
      simp [List.countP_cons]
    rw [hone]
    have hmod : n % K < K := Nat.mod_lt _ hK
    have hdecomp := Nat.div_add_mod n K
    by_cases hfull : n % K + 1 = K
    · have he : n + 1 = K * (n / K) + K := by omega
      have hdiv1 : (n + 1) / K = n / K + 1 := by
        rw [he, Nat.mul_add_div hK, Nat.div_self hK]
      have hmod1 : (n + 1) % K = 0 := by
        rw [he, Nat.mul_add_mod]
        exact Nat.mod_self K
      rw [hdiv1, hmod1]
      split_ifs <;> omega
    · have hlt : n % K + 1 < K := by omega
      have he : n + 1 = K * (n / K) + (n % K + 1) := by omega
      have hdiv1 : (n + 1) / K = n / K := by
        rw [he, Nat.mul_add_div hK, Nat.div_eq_of_lt hlt, Nat.add_zero]
      have hmod1 : (n + 1) % K = n % K + 1 := by
        rw [he, Nat.mul_add_mod]
        exact Nat.mod_eq_of_lt hlt
      rw [hdiv1, hmod1]
      split_ifs <;> omega

/-- Helper: hitting position `p` from offset `j` is a residue condition. -/
theorem mod_shift_iff (K j p : Nat) (hK : 0 < K) (hj : j < K) (hp : p < K)
    (t : Nat) : ((j + t) % K = p) ↔ (t % K = (p + K - j) % K) := by
  rw [Nat.add_mod j t K, Nat.mod_eq_of_lt hj]
  have hs : t % K < K := Nat.mod_lt _ hK
  have hlhs : (j + t % K) % K
      = if j + t % K < K then j + t % K else j + t % K - K := by
    by_cases hb : j + t % K < K
    · rw [if_pos hb, Nat.mod_eq_of_lt hb]
    · rw [if_neg hb, Nat.mod_eq_sub_mod (by omega)]
      exact Nat.mod_eq_of_lt (by omega)
  have hrhs : (p + K - j) % K
      = if p + K - j < K then p + K - j else p + K - j - K := by
    by_cases hb : p + K - j < K
    · rw [if_pos hb, Nat.mod_eq_of_lt hb]
    · rw [if_neg hb, Nat.mod_eq_sub_mod (by omega)]
      exact Nat.mod_eq_of_lt (by omega)
  rw [hlhs, hrhs]
  split_ifs <;> omega

/-- Helper: `⌈N/K⌉` as `(N + K - 1) / K`, when `K` does not divide `N`. -/
theorem ceil_div (N K : Nat) (hK : 0 < K) (h : N % K ≠ 0) :
    (N + K - 1) / K = N / K + 1 := by
  have hdecomp := Nat.div_add_mod N K
  have hmod : N % K < K := Nat.mod_lt _ hK
  have hr0 : 1 ≤ N % K := by omega
  have h1 : N + K - 1 = K * (N / K) + ((N % K - 1) + K) := by omega
  rw [h1, Nat.mul_add_div hK, Nat.add_div_right _ hK,
    Nat.div_eq_of_lt (show N % K - 1 < K from by omega)]

/-- Helper: the selector at a cursor `≤ len` picks exactly index
    `cursor mod len` and advances to its successor. -/
theorem roundRobinSelect_eq {α : Type} (l : List α) (hK : 0 < l.length) (c : Nat)
    (hc : c ≤ l.length) :
    roundRobinSelect l c = (l.get? (c % l.length), c % l.length + 1) := by
  simp only [roundRobinSelect]
  have hidx : (if l.length ≤ c then 0 else c) = c % l.length := by
    rcases Nat.lt_or_ge c l.length with hlt | hge
    · rw [if_neg (by omega), Nat.mod_eq_of_lt hlt]
    · have hceq : c = l.length := by omega
      rw [if_pos (by omega), hceq, Nat.mod_self]
  rw [hidx]
  have hin : c % l.length < l.length := Nat.mod_lt _ hK
  rw [List.get?_eq_get hin]

/-- Helper: closed form of the pick sequence — the `t`-th pick is the
    candidate at index `(cursor mod len + t) mod len`. -/
theorem roundRobinRun_picks {α : Type} (l : List α) (hK : 0 < l.length) (d : α) :
    ∀ (N c : Nat), c ≤ l.length →
      (roundRobinRun l c N).1
        = (List.range N).map (fun t => l.getD ((c % l.length + t) % l.length) d) := by
  intro N
  induction N with
  | zero => intro c hc; simp [roundRobinRun]
  | succ n ih =>
    intro c hc
    have hin : c % l.length < l.length := Nat.mod_lt _ hK
    simp only [roundRobinRun]
    rw [roundRobinSelect_eq l hK c hc, List.get?_eq_get hin]
    simp only []
    rw [ih (c % l.length + 1) (by omega)]
    rw [List.range_succ_eq_map]
    simp only [List.map_cons, List.map_map]
    congr 1
    · rw [List.getD_eq_get?,
        show (c % l.length + 0) % l.length = c % l.length from by
          rw [Nat.add_zero]; exact Nat.mod_eq_of_lt hin,
        List.get?_eq_get hin]
      rfl
    · apply List.map_congr_left
      intro a ha
      simp only [Function.comp]
      congr 1
      rw [Nat.mod_add_mod]
      congr 1
      omega

/-- C6: with a fixed candidate list of `K` healthy backends and a cursor at
    most `K`, the `t`-th of `N` successive round-robin selections is
    `candidates[(cursor + t) mod K]`, and each candidate is selected either
    `⌊N/K⌋` or `⌈N/K⌉` times (counts differ by at most one). -/
theorem round_robin_fair {α : Type} [DecidableEq α] (l : List α) (hnd : l.Nodup)
    (hK : 0 < l.length) (c : Nat) (hc : c ≤ l.length) (N p : Nat)
    (hp : p < l.length) :
    (∀ t, t < N →
      (roundRobinRun l c N).1.get? t = l.get? ((c % l.length + t) % l.length)) ∧
    ((roundRobinRun l c N).1.count (l.get ⟨p, hp⟩) = N / l.length ∨
      (roundRobinRun l c N).1.count (l.get ⟨p, hp⟩)
        = (N + l.length - 1) / l.length) := by
  have hpicks := roundRobinRun_picks l hK (l.get ⟨p, hp⟩) N c hc
  constructor
  · intro t ht
    rw [hpicks, List.get?_map, List.get?_eq_getElem?, List.getElem?_range ht]
    have hidx : (c % l.length + t) % l.length < l.length := Nat.mod_lt _ hK
    rw [Option.map_some', List.getD_eq_get?, List.get?_eq_get hidx]
    rfl
  · rw [hpicks, List.count_eq_countP, List.countP_map]
    have hjlt : c % l.length < l.length := Nat.mod_lt _ hK
    have hrlt : (p + l.length - c % l.length) % l.length < l.length :=
      Nat.mod_lt _ hK
    have hcongr :
        List.countP
            ((fun x => x == l.get ⟨p, hp⟩) ∘
              fun t => l.getD ((c % l.length + t) % l.length) (l.get ⟨p, hp⟩))
            (List.range N)
          = List.countP
              (fun t => decide (t % l.length
                = (p + l.length - c % l.length) % l.length))
              (List.range N) := by
      apply List.countP_congr
      intro t ht
      have hidx : (c % l.length + t) % l.length < l.length := Nat.mod_lt _ hK
      simp only [Function.comp, List.getD_eq_get?, List.get?_eq_get hidx,
        Option.getD_some, beq_iff_eq, decide_eq_true_eq]
      rw [hnd.get_inj_iff]
      rw [show (⟨(c % l.length + t) % l.length, hidx⟩ : Fin l.length)
            = ⟨p, hp⟩ ↔ (c % l.length + t) % l.length = p from
          ⟨fun hfe => congrArg Fin.val hfe, fun hv => Fin.ext hv⟩]
      exact mod_shift_iff l.length (c % l.length) p hK hjlt hp t
    rw [hcongr, countP_range_mod l.length _ hK hrlt N]
    by_cases hz : N % l.length = 0
    · left
      rw [hz]
      simp
    · by_cases hlt : (p + l.length - c % l.length) % l.length < N % l.length
      · right
        rw [if_pos hlt, ceil_div N l.length hK hz]
      · left
        rw [if_neg hlt, Nat.add_zero]

/-- Witness for `round_robin_fair`: five selections over two backends. -/
theorem round_robin_fair_witness :
    (["a", "b"] : List String).Nodup ∧ 0 < 2 ∧ 0 ≤ 2 ∧ 0 < 2 ∧
    ((∀ t, t < 5 →
      (roundRobinRun ["a", "b"] 0 5).1.get? t
        = (["a", "b"] : List String).get? ((0 % 2 + t) % 2)) ∧
    ((roundRobinRun ["a", "b"] 0 5).1.count
        ((["a", "b"] : List String).get ⟨0, by decide⟩) = 5 / 2 ∨
      (roundRobinRun ["a", "b"] 0 5).1.count
        ((["a", "b"] : List String).get ⟨0, by decide⟩) = (5 + 2 - 1) / 2)) :=
  ⟨by decide, by decide, by decide, by decide,
    round_robin_fair ["a", "b"] (by decide) (by decide) 0 (by decide) 5 0 (by decide)⟩
